import Mathlib

/-!
Verification of the WoodstockVAURMS core against its specification.

The development embeds the algorithmic core of the repository in Lean:
the tiered-rate billing calculator (server/models/rate.py), the KPI
aggregation (server/api/analytics.py), the role hierarchy
(server/models/user.py), and the audit ledger (server/models/audit.py,
server/api/admin.py).  Python numbers are modelled as rationals, JSON
dictionaries as records or association lists, and the database table
behind the audit ledger as an explicit state value.
-/

namespace VAURMS

/-! ## Rate structures (server/models/rate.py) -/

/-- Tier of a rate structure, one entry of the tiers array inside
structure_json.  A missing or "unbounded" upper bound (`float(inf)` in
the source) is modelled as `none`. -/
structure Tier where
  up_to : Option ℚ
  price : ℚ
  deriving DecidableEq

/-- Payload of the structure_json column: a fixed charge and an ordered
list of tiers. -/
structure RateStructure where
  fixed_charge : ℚ
  tiers : List Tier
  deriving DecidableEq

/-- Loop body of RateStructure.calculate_bill: walk the tiers in the
given order, stop once the remaining consumption is not positive, and
otherwise charge `min(remaining_consumption, tier_limit)` units at the
tier price, where a `none` limit behaves as infinity. -/
def billLoop : List Tier → ℚ → ℚ → ℚ
  | [], _, total => total
  | t :: ts, remaining, total =>
    if remaining ≤ 0 then total
    else
      let tc : ℚ :=
        match Tier.up_to t with
        | none => remaining
        | some b => min remaining b
      billLoop ts (remaining - tc) (total + tc * Tier.price t)

/-- RateStructure.calculate_bill from server/models/rate.py, applied to
a present structure_json value. -/
def calculate_bill (s : RateStructure) (consumption : ℚ) : ℚ :=
  billLoop (RateStructure.tiers s) consumption (RateStructure.fixed_charge s)

/-- Per-tier charges produced by the calculate_bill loop, as a list, so
that the total can be characterised as fixed charge plus a sum. -/
def tierCharges : List Tier → ℚ → List ℚ
  | [], _ => []
  | t :: ts, remaining =>
    if remaining ≤ 0 then []
    else
      let tc : ℚ :=
        match Tier.up_to t with
        | none => remaining
        | some b => min remaining b
      (tc * Tier.price t) :: tierCharges ts (remaining - tc)

/-- Boolean check of the tier-list invariant stated by the spec: finite
bounds are non-negative and strictly increase, and an unbounded tier can
only be the last element.  The first argument is the previous finite
bound seen so far. -/
def boundsChainB : Option ℚ → List Tier → Bool
  | _, [] => true
  | prev, t :: ts =>
    match Tier.up_to t with
    | some b =>
      decide (0 ≤ b) &&
        (match prev with
         | none => true
         | some p => decide (p < b)) &&
        boundsChainB (some b) ts
    | none => List.isEmpty ts

/-- Boolean check that every tier price is non-negative. -/
def pricesNonnegB (ts : List Tier) : Bool :=
  List.all ts (fun t => decide (0 ≤ Tier.price t))

/-- Validity of a rate structure in the sense of the spec: non-negative
fixed charge, non-negative prices, and a well-formed tier list. -/
def ValidStructure (s : RateStructure) : Prop :=
  0 ≤ RateStructure.fixed_charge s ∧
    pricesNonnegB (RateStructure.tiers s) = true ∧
    boundsChainB none (RateStructure.tiers s) = true

instance (s : RateStructure) : Decidable (ValidStructure s) := by
  unfold ValidStructure; infer_instance

/-- Loop of the algorithm as the specification words it, for comparison
with the source code: the chargeable quantity of a finite tier is
`min(remaining, tier_bound - cumulative_consumed_so_far)` and an
unbounded tier absorbs all remaining consumption. -/
def specLoop : List Tier → ℚ → ℚ → ℚ → ℚ
  | [], _, _, total => total
  | t :: ts, remaining, consumed, total =>
    if remaining ≤ 0 then total
    else
      match Tier.up_to t with
      | none => total + remaining * Tier.price t
      | some b =>
        let tc : ℚ := min remaining (b - consumed)
        specLoop ts (remaining - tc) (consumed + tc) (total + tc * Tier.price t)

/-- Bill computation as described by the specification text, used only
to compare the source implementation against the specified algorithm. -/
def computeBill_spec (s : RateStructure) (c : ℚ) : ℚ :=
  specLoop (RateStructure.tiers s) c 0 (RateStructure.fixed_charge s)

/-- Rate structure returned by the optimise endpoint of
server/api/rates.py, used as a concrete test vector. -/
def optimizedStructure : RateStructure :=
  ⟨25, [⟨some 5000, 0.0085⟩, ⟨some 15000, 0.0095⟩, ⟨none, 0.0105⟩]⟩

/-- Rate structure whose tier bounds are not increasing, violating the
tier-list invariant. -/
def badBoundsStructure : RateStructure :=
  ⟨10, [⟨some 200, 1⟩, ⟨some 100, 2⟩]⟩

/-! ## KPI aggregation (server/api/analytics.py) -/

/-- Bill record columns read by the KPI computation, from
server/models/bill.py. -/
structure Bill where
  account_id : String
  bill_period : String
  customer_class : String
  consumption : Option ℚ
  amount : ℚ
  paid_flag : Bool
  deriving DecidableEq

/-- Sum of all bill amounts, line 33 of server/api/analytics.py. -/
def totalRevenue (bills : List Bill) : ℚ :=
  List.sum (List.map Bill.amount bills)

/-- Sum of the amounts of paid bills, line 34 of
server/api/analytics.py. -/
def totalPaid (bills : List Bill) : ℚ :=
  List.sum (List.map Bill.amount (List.filter (fun b => Bill.paid_flag b) bills))

/-- Number of distinct account identifiers, line 35 of
server/api/analytics.py. -/
def customerCount (bills : List Bill) : ℕ :=
  Finset.card (List.toFinset (List.map Bill.account_id bills))

/-- Collection rate, line 36 of server/api/analytics.py: the paid share
of revenue as a percentage, and 0 whenever total revenue is not
positive. -/
def collectionRate (bills : List Bill) : ℚ :=
  if 0 < totalRevenue bills then totalPaid bills / totalRevenue bills * 100 else 0

/-- Round-half-to-even on rationals, the idealisation of the Python
built-in round. -/
def roundHalfEven (q : ℚ) : ℤ :=
  if q - ⌊q⌋ < 1 / 2 then ⌊q⌋
  else if 1 / 2 < q - ⌊q⌋ then ⌊q⌋ + 1
  else if ⌊q⌋ % 2 = 0 then ⌊q⌋ else ⌊q⌋ + 1

/-- Rounding to one decimal place, as `round(x, 1)` in the source. -/
def pythonRound1 (q : ℚ) : ℚ :=
  (roundHalfEven (q * 10) : ℚ) / 10

/-- Response shape of the kpis endpoint. -/
structure Kpis where
  total_revenue : ℚ
  collection_rate : ℚ
  customer_count : ℕ
  coverage_ratio : ℚ
  revenue_change : ℚ
  collection_change : ℚ
  customer_change : ℚ
  coverage_change : ℚ
  deriving DecidableEq

/-- Mock KPI payload returned by get_mock_kpis in
server/api/analytics.py. -/
def get_mock_kpis : Kpis :=
  ⟨2450000, 94.2, 12500, 1.15, 5.2, 1.8, 2.1, 0⟩

/-- Bill-set branch of get_kpis in server/api/analytics.py: an empty
bill list yields the mock payload, a non-empty one the computed totals
together with the hardcoded coverage and change values. -/
def getKpis (bills : List Bill) : Kpis :=
  if List.isEmpty bills then get_mock_kpis
  else
    ⟨totalRevenue bills, pythonRound1 (collectionRate bills), customerCount bills,
      1.15, 5.2, 1.8, 2.1, 0⟩

/-! ## Users and roles (server/models/user.py) -/

/-- Ordinal assigned to a role by the role_hierarchy dictionary in
User.has_permission; the dictionary lookup defaults to 0 for a role
outside the mapping. -/
def roleOrdinal (role : String) : ℕ :=
  if role = "viewer" then 1
  else if role = "analyst" then 2
  else if role = "admin" then 3
  else 0

/-- User.has_permission from server/models/user.py: the ordinal of the
user role must reach the ordinal of the required role. -/
def has_permission (role required : String) : Bool :=
  decide (roleOrdinal required ≤ roleOrdinal role)

/-- JSON-like values appearing in serialized model dictionaries. -/
inductive JVal where
  | num : ℚ → JVal
  | str : String → JVal
  | boolean : Bool → JVal
  | null : JVal
  deriving DecidableEq

/-- Serialization of a nullable string column. -/
def optStr : Option String → JVal
  | none => JVal.null
  | some s => JVal.str s

/-- Columns of the users table: the shared BaseModel columns followed by
the columns declared in server/models/user.py. -/
structure User where
  id : ℕ
  created_at : ℕ
  updated_at : ℕ
  email : String
  password_hash : String
  role : String
  first_name : Option String
  last_name : Option String
  is_active : Bool
  deriving DecidableEq

/-- BaseModel.to_dict of server/models/base.py applied to a User: one
entry per table column. -/
def baseToDict (u : User) : List (String × JVal) :=
  [("id", JVal.num (User.id u)),
   ("created_at", JVal.num (User.created_at u)),
   ("updated_at", JVal.num (User.updated_at u)),
   ("email", JVal.str (User.email u)),
   ("password_hash", JVal.str (User.password_hash u)),
   ("role", JVal.str (User.role u)),
   ("first_name", optStr (User.first_name u)),
   ("last_name", optStr (User.last_name u)),
   ("is_active", JVal.boolean (User.is_active u))]

/-- User.to_dict from server/models/user.py: the base dictionary with
the password_hash entry popped. -/
def User.to_dict (u : User) : List (String × JVal) :=
  List.filter (fun p => decide (Prod.fst p ≠ "password_hash")) (baseToDict u)

/-- Replace the stored password hash of a user, leaving every other
column unchanged. -/
def User.setPasswordHash (u : User) (h : String) : User :=
  ⟨User.id u, User.created_at u, User.updated_at u, User.email u, h,
    User.role u, User.first_name u, User.last_name u, User.is_active u⟩

/-! ## Audit ledger (server/models/audit.py, server/api/admin.py) -/

/-- Row of the audit table.  The id column is the autoincrement primary
key, created_at the BaseModel timestamp (an abstract clock value), and
payload_json the caller-supplied context map. -/
structure AuditRecord where
  id : ℕ
  created_at : ℕ
  action : String
  resource_type : Option String
  resource_id : Option String
  description : Option String
  payload_json : Option (List (String × String))
  ip_address : Option String
  user_agent : Option String
  user_id : Option ℕ
  deriving DecidableEq

/-- State of the audit table: committed rows in insertion order plus
the next primary key the autoincrement column will assign. -/
structure AuditDb where
  records : List AuditRecord
  nextId : ℕ
  deriving DecidableEq

/-- Arguments of Audit.log_action. -/
structure AuditArgs where
  action : String
  user_id : Option ℕ
  resource_type : Option String
  resource_id : Option String
  description : Option String
  payload : Option (List (String × String))
  ip_address : Option String
  user_agent : Option String
  deriving DecidableEq

/-- Conversion `str(resource_id) if resource_id else None` from
Audit.log_action: a falsy value (absent or empty) becomes null. -/
def normResourceId : Option String → Option String
  | none => none
  | some s => if s = "" then none else some s

/-- Audit.log_action from server/models/audit.py: build the row, commit
it to the table, and return it.  The clock argument supplies the
created_at timestamp. -/
def log_action (db : AuditDb) (now : ℕ) (a : AuditArgs) : AuditRecord × AuditDb :=
  let entry : AuditRecord :=
    ⟨AuditDb.nextId db, now, AuditArgs.action a, AuditArgs.resource_type a,
      normResourceId (AuditArgs.resource_id a), AuditArgs.description a,
      AuditArgs.payload a, AuditArgs.ip_address a, AuditArgs.user_agent a,
      AuditArgs.user_id a⟩
  (entry, ⟨AuditDb.records db ++ [entry], AuditDb.nextId db + 1⟩)

/-- Ordering used by the audit query: newer creation time first, and
among rows with equal creation time the higher (more recently assigned)
id first.  This fixes deterministically the tie order of the SQL
`ORDER BY created_at DESC` in server/api/admin.py. -/
def auditAfter (a b : AuditRecord) : Prop :=
  AuditRecord.created_at b < AuditRecord.created_at a ∨
    (AuditRecord.created_at a = AuditRecord.created_at b ∧
      AuditRecord.id b ≤ AuditRecord.id a)

instance : DecidableRel auditAfter := fun a b => by
  unfold auditAfter; infer_instance

instance : IsTotal AuditRecord auditAfter :=
  ⟨fun a b => by unfold auditAfter; omega⟩

instance : IsTrans AuditRecord auditAfter :=
  ⟨fun a b c hab hbc => by
    unfold auditAfter at hab hbc ⊢; omega⟩

/-- Query of server/api/admin.py with the limit as a parameter:
`Audit.query.order_by(Audit.created_at.desc()).limit(n).all()`. -/
def audit_recent (n : ℕ) (db : AuditDb) : List AuditRecord :=
  List.take n (List.insertionSort auditAfter (AuditDb.records db))

/-- Audit listing of the admin endpoint, which uses a fixed limit of
100 rows. -/
def get_audit_log (db : AuditDb) : List AuditRecord :=
  audit_recent 100 db

/-- Empty audit table, as created before any action is logged. -/
def emptyAuditDb : AuditDb := ⟨[], 1⟩

/-! ## Helper lemmas -/

lemma billLoop_zero (ts : List Tier) (total : ℚ) : billLoop ts 0 total = total := by
  cases ts with
  | nil => rfl
  | cons t ts => simp [billLoop]

lemma billLoop_eq_sum (ts : List Tier) : ∀ remaining total : ℚ,
    billLoop ts remaining total = total + List.sum (tierCharges ts remaining) := by
  induction ts with
  | nil => intro r t; simp [billLoop, tierCharges]
  | cons hd tl ih =>
    intro r t
    by_cases h : r ≤ 0
    · simp [billLoop, tierCharges, h]
    · cases hup : Tier.up_to hd with
      | none => simp [billLoop, tierCharges, h, hup, ih]; ring
      | some b => simp [billLoop, tierCharges, h, hup, ih]; ring

lemma tierCharges_nonneg : ∀ ts : List Tier,
    (∀ t ∈ ts, 0 ≤ Tier.price t) →
    (∀ t ∈ ts, ∀ b, Tier.up_to t = some b → 0 ≤ b) →
    ∀ remaining q : ℚ, q ∈ tierCharges ts remaining → 0 ≤ q := by
  intro ts
  induction ts with
  | nil => intro _ _ r q hq; simp [tierCharges] at hq
  | cons hd tl ih =>
    intro hp hb r q hq
    by_cases h : r ≤ 0
    · simp [tierCharges, h] at hq
    · have hr : 0 < r := not_le.mp h
      have hptl : ∀ t ∈ tl, 0 ≤ Tier.price t :=
        fun t ht => hp t (List.mem_cons_of_mem _ ht)
      have hbtl : ∀ t ∈ tl, ∀ b, Tier.up_to t = some b → 0 ≤ b :=
        fun t ht => hb t (List.mem_cons_of_mem _ ht)
      cases hup : Tier.up_to hd with
      | none =>
        simp only [tierCharges, h, if_neg, hup, ite_false, List.mem_cons] at hq
        rcases hq with rfl | hq
        · exact mul_nonneg hr.le (hp hd (List.mem_cons_self hd tl))
        · exact ih hptl hbtl _ q hq
      | some b =>
        simp only [tierCharges, h, if_neg, hup, ite_false, List.mem_cons] at hq
        rcases hq with rfl | hq
        · exact mul_nonneg
            (le_min hr.le (hb hd (List.mem_cons_self hd tl) b hup))
            (hp hd (List.mem_cons_self hd tl))
        · exact ih hptl hbtl _ q hq

lemma pricesNonnegB_sound (ts : List Tier) (h : pricesNonnegB ts = true) :
    ∀ t ∈ ts, 0 ≤ Tier.price t := by
  intro t ht
  simp only [pricesNonnegB, List.all_eq_true, decide_eq_true_eq] at h
  exact h t ht

lemma boundsChainB_nonneg : ∀ (ts : List Tier) (prev : Option ℚ),
    boundsChainB prev ts = true →
    ∀ t ∈ ts, ∀ b, Tier.up_to t = some b → 0 ≤ b := by
  intro ts
  induction ts with
  | nil => intro prev _ t ht; simp at ht
  | cons hd tl ih =>
    intro prev h t ht b hb
    cases hup : Tier.up_to hd with
    | some bb =>
      rw [boundsChainB, hup] at h
      simp only [Bool.and_eq_true, decide_eq_true_eq] at h
      rcases List.mem_cons.mp ht with rfl | htl
      · rw [hup] at hb
        injection hb with hbb
        exact hbb ▸ h.1.1
      · exact ih (some bb) h.2 t htl b hb
    | none =>
      rw [boundsChainB, hup] at h
      have htl0 : tl = [] := by
        cases tl with
        | nil => rfl
        | cons x xs => simp [List.isEmpty] at h
      rcases List.mem_cons.mp ht with rfl | htl
      · rw [hup] at hb; cases hb
      · rw [htl0] at htl; simp at htl

lemma optimizedStructure_valid : ValidStructure optimizedStructure := by
  norm_num [ValidStructure, optimizedStructure, pricesNonnegB, boundsChainB]

/-! ## Claim theorems -/

/-- C1: the specification states that each tier charges
`min(remaining, tier_bound - cumulative_consumed_so_far)` at the tier
price, tier bounds being cumulative consumption thresholds.  The source
instead charges `min(remaining, tier_bound)`, treating the cumulative
bound as a per-tier capacity.  On the three-tier structure that the
repository itself produces in the optimise endpoint, at consumption
20000, the code yields 210 while the specified algorithm yields 215
(42.5 + 95 + 52.5 over the tiers plus the fixed charge 25): the second
tier is charged 15000 units instead of its 10000-unit span and the
third tier is never reached. -/
theorem calculate_bill_ne_specified_algorithm :
    ValidStructure optimizedStructure ∧
      calculate_bill optimizedStructure 20000 = 210 ∧
      computeBill_spec optimizedStructure 20000 = 215 ∧
      calculate_bill optimizedStructure 20000 ≠ computeBill_spec optimizedStructure 20000 := by
  refine ⟨optimizedStructure_valid, ?_, ?_, ?_⟩
  · norm_num [calculate_bill, optimizedStructure, billLoop, min_def]
  · norm_num [computeBill_spec, optimizedStructure, specLoop, min_def]
  · norm_num [calculate_bill, computeBill_spec, optimizedStructure, billLoop, specLoop, min_def]

/-- C2 counterexample: a rate structure whose tier bounds are not
increasing fails the tier-list invariant, yet calculate_bill processes
it without any error and returns the numeric bill 310 at consumption
250; no ConfigurationError is raised before computation because the
source performs no validation at all. -/
theorem invalid_structure_bill_computed :
    boundsChainB none (RateStructure.tiers badBoundsStructure) = false ∧
      calculate_bill badBoundsStructure 250 = 310 := by
  constructor
  · norm_num [badBoundsStructure, boundsChainB]
  · norm_num [calculate_bill, badBoundsStructure, billLoop, min_def]

/-- C2 amended: for every rate structure whose tier list violates the
invariant, calculate_bill still returns a numeric result, namely the
fixed charge plus the per-tier charges of the unvalidated loop. -/
theorem calculate_bill_invalid_returns_loop_result (s : RateStructure) (c : ℚ)
    (h : boundsChainB none (RateStructure.tiers s) = false) :
    calculate_bill s c =
      RateStructure.fixed_charge s + List.sum (tierCharges (RateStructure.tiers s) c) := by
  rw [calculate_bill, billLoop_eq_sum]

/-- C2 amended witness: the amended statement applied to the concrete
invalid structure. -/
theorem calculate_bill_invalid_returns_loop_result_witness :
    boundsChainB none (RateStructure.tiers badBoundsStructure) = false ∧
      calculate_bill badBoundsStructure 250 =
        RateStructure.fixed_charge badBoundsStructure +
          List.sum (tierCharges (RateStructure.tiers badBoundsStructure) 250) :=
  ⟨by norm_num [badBoundsStructure, boundsChainB],
   calculate_bill_invalid_returns_loop_result badBoundsStructure 250
     (by norm_num [badBoundsStructure, boundsChainB])⟩

/-- C8: for every non-negative consumption and every valid rate
structure the computed bill is at least the fixed charge, and at
consumption 0 it equals the fixed charge exactly. -/
theorem calculate_bill_ge_fixed_charge (s : RateStructure) (c : ℚ)
    (hc : 0 ≤ c) (hs : ValidStructure s) :
    RateStructure.fixed_charge s ≤ calculate_bill s c ∧
      calculate_bill s 0 = RateStructure.fixed_charge s := by
  obtain ⟨hf, hp, hb⟩ := hs
  constructor
  · rw [calculate_bill, billLoop_eq_sum]
    have hsum : 0 ≤ List.sum (tierCharges (RateStructure.tiers s) c) :=
      List.sum_nonneg fun q hq =>
        tierCharges_nonneg _ (pricesNonnegB_sound _ hp) (boundsChainB_nonneg _ none hb) c q hq
    linarith
  · rw [calculate_bill, billLoop_zero]

/-- C8 witness: the bound at the optimise-endpoint structure and
consumption 8000. -/
theorem calculate_bill_ge_fixed_charge_witness :
    (0 : ℚ) ≤ 8000 ∧ ValidStructure optimizedStructure ∧
      (RateStructure.fixed_charge optimizedStructure ≤ calculate_bill optimizedStructure 8000 ∧
        calculate_bill optimizedStructure 0 = RateStructure.fixed_charge optimizedStructure) :=
  ⟨by norm_num, optimizedStructure_valid,
   calculate_bill_ge_fixed_charge optimizedStructure 8000 (by norm_num) optimizedStructure_valid⟩

/-- C3 counterexample: on an empty bill list the kpis endpoint returns
the mock payload, whose revenue is 2450000, collection rate 94.2 and
customer count 12500, so the aggregate is not the zero snapshot the
claim states. -/
theorem getKpis_empty_not_zero :
    Kpis.total_revenue (getKpis []) = 2450000 ∧
      Kpis.collection_rate (getKpis []) = 94.2 ∧
      Kpis.customer_count (getKpis []) = 12500 ∧
      ¬(Kpis.total_revenue (getKpis []) = 0 ∧ Kpis.collection_rate (getKpis []) = 0 ∧
          Kpis.customer_count (getKpis []) = 0) := by
  refine ⟨?_, ?_, ?_, ?_⟩ <;> norm_num [getKpis, get_mock_kpis]

/-- C3 amended: applied to an empty bill list the kpis computation is a
defined, non-erroring case, but it returns the mock KPI payload of
get_mock_kpis (total revenue 2450000, collection rate 94.2, customer
count 12500) rather than zeros. -/
theorem getKpis_empty_eq_mock :
    getKpis [] = get_mock_kpis ∧
      Kpis.total_revenue get_mock_kpis = 2450000 ∧
      Kpis.collection_rate get_mock_kpis = 94.2 ∧
      Kpis.customer_count get_mock_kpis = 12500 := by
  refine ⟨rfl, ?_, ?_, rfl⟩ <;> norm_num [get_mock_kpis]

/-- C4: the role hierarchy maps viewer to 1, analyst to 2, admin to 3;
has_permission authorizes exactly when the ordinal of the principal
role reaches the ordinal of the required role; a principal whose role
is outside the mapping has ordinal 0 and is denied for every one of the
defined required roles. -/
theorem has_permission_spec :
    roleOrdinal "viewer" = 1 ∧ roleOrdinal "analyst" = 2 ∧ roleOrdinal "admin" = 3 ∧
      (∀ p r : String, has_permission p r = true ↔ roleOrdinal r ≤ roleOrdinal p) ∧
      (∀ p : String, p ≠ "viewer" → p ≠ "analyst" → p ≠ "admin" →
        roleOrdinal p = 0 ∧
          ∀ r : String, (r = "viewer" ∨ r = "analyst" ∨ r = "admin") →
            has_permission p r = false) := by
  refine ⟨by decide, by decide, by decide, ?_, ?_⟩
  · intro p r
    simp [has_permission]
  · intro p h1 h2 h3
    have hp0 : roleOrdinal p = 0 := by simp [roleOrdinal, h1, h2, h3]
    refine ⟨hp0, ?_⟩
    intro r hr
    have h1r : 1 ≤ roleOrdinal r := by
      rcases hr with rfl | rfl | rfl <;> decide
    simp only [has_permission, hp0, decide_eq_false_iff_not, not_le]
    omega

/-- C4 witness: the unrecognized role guest has ordinal 0 and is denied
admin access. -/
theorem has_permission_spec_witness :
    ("guest" : String) ≠ "viewer" ∧ ("guest" : String) ≠ "analyst" ∧
      ("guest" : String) ≠ "admin" ∧ roleOrdinal "guest" = 0 ∧
      has_permission "guest" "admin" = false := by
  have h := (has_permission_spec.2.2.2.2) "guest" (by decide) (by decide) (by decide)
  exact ⟨by decide, by decide, by decide, h.1, h.2 "admin" (Or.inr (Or.inr rfl))⟩

/-- Concrete paid bill used as a test vector. -/
def exampleBill : Bill := ⟨"A1", "2024-01", "residential", some 10, 100, true⟩

/-- Concrete unpaid bill used as a test vector. -/
def exampleBill2 : Bill := ⟨"B2", "2024-01", "commercial", some 20, 200, false⟩

/-- C7: for a non-empty bill list the collection rate is the paid sum
divided by total revenue times 100 whenever total revenue is positive,
and is 0 when total revenue is 0; in the embedding the computation is a
total function, so the zero-revenue case returns 0 instead of raising a
division error. -/
theorem collectionRate_spec (bills : List Bill) (hne : bills ≠ []) :
    (0 < totalRevenue bills →
      collectionRate bills = totalPaid bills / totalRevenue bills * 100) ∧
      (totalRevenue bills = 0 → collectionRate bills = 0) := by
  constructor
  · intro hpos
    rw [collectionRate, if_pos hpos]
  · intro h0
    have hneg : ¬ 0 < totalRevenue bills := by rw [h0]; exact lt_irrefl 0
    rw [collectionRate, if_neg hneg]

/-- C7 witness: the statement applied to a one-element bill list. -/
theorem collectionRate_spec_witness :
    ([exampleBill] : List Bill) ≠ [] ∧
      ((0 < totalRevenue [exampleBill] →
        collectionRate [exampleBill] =
          totalPaid [exampleBill] / totalRevenue [exampleBill] * 100) ∧
        (totalRevenue [exampleBill] = 0 → collectionRate [exampleBill] = 0)) :=
  ⟨List.cons_ne_nil _ _, collectionRate_spec [exampleBill] (List.cons_ne_nil _ _)⟩

/-- C9: the aggregated totals are invariant under permutation of the
bill list: revenue, paid sum, distinct customer count and collection
rate depend only on the multiset of records. -/
theorem aggregate_perm_invariant (b₁ b₂ : List Bill) (hperm : List.Perm b₁ b₂) :
    totalRevenue b₁ = totalRevenue b₂ ∧ totalPaid b₁ = totalPaid b₂ ∧
      customerCount b₁ = customerCount b₂ ∧ collectionRate b₁ = collectionRate b₂ := by
  have hr : totalRevenue b₁ = totalRevenue b₂ :=
    List.Perm.sum_eq (List.Perm.map Bill.amount hperm)
  have hp : totalPaid b₁ = totalPaid b₂ :=
    List.Perm.sum_eq (List.Perm.map Bill.amount (List.Perm.filter _ hperm))
  have hc : customerCount b₁ = customerCount b₂ := by
    unfold customerCount
    rw [List.toFinset_eq_of_perm _ _ (List.Perm.map Bill.account_id hperm)]
  refine ⟨hr, hp, hc, ?_⟩
  unfold collectionRate
  rw [hr, hp]

/-- C9 witness: the statement applied to a two-element bill list and
its transposition. -/
theorem aggregate_perm_invariant_witness :
    List.Perm [exampleBill, exampleBill2] [exampleBill2, exampleBill] ∧
      (totalRevenue [exampleBill, exampleBill2] = totalRevenue [exampleBill2, exampleBill] ∧
        totalPaid [exampleBill, exampleBill2] = totalPaid [exampleBill2, exampleBill] ∧
        customerCount [exampleBill, exampleBill2] = customerCount [exampleBill2, exampleBill] ∧
        collectionRate [exampleBill, exampleBill2] = collectionRate [exampleBill2, exampleBill]) :=
  ⟨List.Perm.swap exampleBill2 exampleBill [],
   aggregate_perm_invariant _ _ (List.Perm.swap exampleBill2 exampleBill [])⟩

lemma to_dict_eval (u : User) : User.to_dict u =
    [("id", JVal.num (User.id u)),
     ("created_at", JVal.num (User.created_at u)),
     ("updated_at", JVal.num (User.updated_at u)),
     ("email", JVal.str (User.email u)),
     ("role", JVal.str (User.role u)),
     ("first_name", optStr (User.first_name u)),
     ("last_name", optStr (User.last_name u)),
     ("is_active", JVal.boolean (User.is_active u))] := rfl

/-- C10: the serialized user dictionary never contains the
password_hash key, and the serialization is unchanged when the stored
hash is replaced, so the output is independent of password material. -/
theorem to_dict_excludes_password_hash (u : User) (h : String) :
    ("password_hash" ∉ List.map Prod.fst (User.to_dict u)) ∧
      User.to_dict (User.setPasswordHash u h) = User.to_dict u := by
  constructor
  · rw [to_dict_eval]
    simp only [List.map_cons, List.map_nil, List.mem_cons, List.not_mem_nil]
    decide
  · rfl

/-- Audit arguments carrying a password entry in the payload map. -/
def passwordArgs : AuditArgs :=
  ⟨"login", some 1, none, none, none, some [("password", "hunter2")], none, none⟩

/-- C5 counterexample: a caller-supplied payload map containing the key
password is committed verbatim by log_action: the persisted record
still carries the password key, so no sensitive key is rejected or
stripped at the boundary. -/
theorem log_action_persists_password_key :
    "password" ∈ List.map Prod.fst
        (Option.getD
          (AuditRecord.payload_json (Prod.fst (log_action emptyAuditDb 0 passwordArgs))) []) ∧
      Prod.fst (log_action emptyAuditDb 0 passwordArgs) ∈
        AuditDb.records (Prod.snd (log_action emptyAuditDb 0 passwordArgs)) := by
  constructor
  · simp [log_action, passwordArgs]
  · simp [log_action]

/-- C5 amended: log_action persists the caller payload unchanged, so
any key of the supplied map, sensitive or not, reaches a committed
record. -/
theorem log_action_payload_verbatim (db : AuditDb) (now : ℕ) (a : AuditArgs)
    (k v : String) (hkv : (k, v) ∈ Option.getD (AuditArgs.payload a) []) :
    AuditRecord.payload_json (Prod.fst (log_action db now a)) = AuditArgs.payload a ∧
      ∃ r ∈ AuditDb.records (Prod.snd (log_action db now a)),
        (k, v) ∈ Option.getD (AuditRecord.payload_json r) [] := by
  refine ⟨rfl, ⟨Prod.fst (log_action db now a), ?_, ?_⟩⟩
  · simp [log_action]
  · simpa [log_action] using hkv

/-- C5 amended witness: the amended statement at a payload holding a
password entry. -/
theorem log_action_payload_verbatim_witness :
    ("password", "hunter2") ∈ Option.getD (AuditArgs.payload passwordArgs) [] ∧
      (AuditRecord.payload_json (Prod.fst (log_action emptyAuditDb 0 passwordArgs)) =
          AuditArgs.payload passwordArgs ∧
        ∃ r ∈ AuditDb.records (Prod.snd (log_action emptyAuditDb 0 passwordArgs)),
          ("password", "hunter2") ∈ Option.getD (AuditRecord.payload_json r) []) :=
  ⟨by simp [passwordArgs],
   log_action_payload_verbatim emptyAuditDb 0 passwordArgs "password" "hunter2"
     (by simp [passwordArgs])⟩

/-- C6: the audit query with limit n returns at most n records, sorted
newest creation time first with ties broken by the more recently
assigned id first, and two sequential log_action calls assign strictly
increasing ids. -/
theorem audit_recent_spec (db : AuditDb) (n : ℕ) (hn : 0 < n) :
    List.length (audit_recent n db) ≤ n ∧
      List.Sorted auditAfter (audit_recent n db) ∧
      ∀ (t₁ t₂ : ℕ) (a₁ a₂ : AuditArgs),
        AuditRecord.id (Prod.fst (log_action db t₁ a₁)) <
          AuditRecord.id (Prod.fst (log_action (Prod.snd (log_action db t₁ a₁)) t₂ a₂)) := by
  refine ⟨?_, ?_, ?_⟩
  · rw [audit_recent, List.length_take]
    exact min_le_left _ _
  · have hs : List.Sorted auditAfter (List.insertionSort auditAfter (AuditDb.records db)) :=
      List.sorted_insertionSort auditAfter (AuditDb.records db)
    exact List.Pairwise.sublist (List.take_sublist n _) hs
  · intro t₁ t₂ a₁ a₂
    simp [log_action]

/-- C6 witness: the statement applied to the empty table, limit 1 and
two concrete append calls. -/
theorem audit_recent_spec_witness :
    0 < 1 ∧
      (List.length (audit_recent 1 emptyAuditDb) ≤ 1 ∧
        List.Sorted auditAfter (audit_recent 1 emptyAuditDb) ∧
        AuditRecord.id (Prod.fst (log_action emptyAuditDb 0 passwordArgs)) <
          AuditRecord.id
            (Prod.fst (log_action (Prod.snd (log_action emptyAuditDb 0 passwordArgs)) 0 passwordArgs))) := by
  have h := audit_recent_spec emptyAuditDb 1 (by decide)
  exact ⟨by decide, h.1, h.2.1, h.2.2 0 0 passwordArgs passwordArgs⟩

end VAURMS
